import Mathlib

/-!
Verification of the preferences store of the lens-extension-cc repository
(src/cc/store/PreferencesStore.js) against its natural-language specification.

The store is shallowly embedded: JavaScript values are modelled by `JSValue`,
a raw value map read from disk by `RawMap` (an association list in insertion
order, mirroring JS object key order), and the live singleton instance by
`PreferencesStore`.  Update handlers are opaque identities (`Nat`).

The rtvjs library that executes `rtv.check` is not part of the repository
sources; its qualifier semantics are modelled from the specification (see
`validate`).  The custom trailing-slash validator for `cloudUrl`, the copy
loop of `fromStore`, `reset`, `toJSON`, `getDefaults` and the handler
registry are translated directly from the source file.
-/

set_option autoImplicit false

namespace LensCC

/-- JavaScript runtime values, as far as the preferences store observes them:
`undefined`, `null`, booleans, strings and numbers. -/
inductive JSValue where
  | undefined
  | null
  | bool (b : Bool)
  | str (s : String)
  | num (n : Int)
  deriving DecidableEq

/-- A raw value map handed to `fromStore` by the persistence backend: string
keys with JS values, kept in insertion order (the order `Object.keys` uses). -/
abbrev RawMap : Type := List (String × JSValue)

/-- Keys of a raw map, in order. -/
def keysOf (m : RawMap) : List String := m.map Prod.fst

/-- First-match lookup of a key in a raw map (JS objects hold each key once). -/
def lookupKey (m : RawMap) (key : String) : Option JSValue :=
  match m with
  | [] => none
  | (k, v) :: rest => if k = key then some v else lookupKey rest key

/-- JS property write on a plain object stored as an association list:
overwrite the existing entry for the key, otherwise append a new one. -/
def setAssoc (l : List (String × JSValue)) (key : String) (v : JSValue) :
    List (String × JSValue) :=
  match l with
  | [] => [(key, v)]
  | (k, w) :: rest =>
    if k = key then (key, v) :: rest else (k, w) :: setAssoc rest key v

/-- The `updateHandlers` own property of the store instance.  Normally it is
the array of registered handlers (`list`), but because `reset()` and
`fromStore()` assign through dynamic keys it can be clobbered with an
arbitrary JS value (`js`), e.g. `undefined`. -/
inductive HandlerSlot where
  | list (hs : List Nat)
  | js (v : JSValue)
  deriving DecidableEq

/-- The live singleton `PreferencesStore` instance: the five `@observable`
preference fields, the `updateHandlers` own property, and any extra own
properties created by assigning unrecognized keys (`this[key] = ...`). -/
structure PreferencesStore where
  cloudUrl : JSValue
  username : JSValue
  savePath : JSValue
  offline : JSValue
  addToNew : JSValue
  updateHandlers : HandlerSlot
  extraProps : List (String × JSValue)
  deriving DecidableEq

/-- The initial value of the static `PreferencesStore.defaultSavePath`
(`static defaultSavePath = null`). -/
def initialDefaultSavePath : JSValue := JSValue.null

/-- Translation of `PreferencesStore.getDefaults()`.  The static
`defaultSavePath` is read at each call, so it is a parameter `d` holding the
static field's current value. -/
def getDefaults (d : JSValue) : List (String × JSValue) :=
  [("cloudUrl", JSValue.null),
   ("username", JSValue.null),
   ("savePath", d),
   ("offline", JSValue.bool false),
   ("addToNew", JSValue.bool true)]

/-- JS read `defaults[key]`: the value when the key is present, `undefined`
otherwise. -/
def defaultsLookup (d : JSValue) (key : String) : JSValue :=
  (lookupKey (getDefaults d) key).getD JSValue.undefined

/-- The five recognized preference keys, in declaration order. -/
def recognizedKeys : List String :=
  ["cloudUrl", "username", "savePath", "offline", "addToNew"]

/-- Translation of the custom validator in the `cloudUrl` typeset entry:
`v.match(/\/$/)` tests whether the string ends with a slash. -/
def endsWithSlash (u : String) : Bool := u.data.getLast? = some '/'

/-- Per-field check of the `cloudUrl` typeset entry.  Modelled from the spec:
rtvjs qualifier semantics (`EXPECTED STRING`: absent or null or a string) are
not in the repository sources; the trailing-slash validator
`if (v && v.match(/\/$/)) throw ...` is translated from the source, with JS
truthiness making the empty string skip the check. -/
def cloudUrlOk (v : Option JSValue) : Bool :=
  match v with
  | none => true
  | some JSValue.undefined => true
  | some JSValue.null => true
  | some (JSValue.str u) => !(!(u = "") && endsWithSlash u)
  | some _ => false

/-- Modelled from the spec: an optional string field (`username`, `savePath`)
accepts an absent key, null, or any string. -/
def isOptionalString (v : Option JSValue) : Bool :=
  match v with
  | none => true
  | some JSValue.undefined => true
  | some JSValue.null => true
  | some (JSValue.str _) => true
  | some _ => false

/-- Modelled from the spec: a required boolean field (`offline`, `addToNew`)
must be present and hold a value of boolean type; null is not a boolean. -/
def isRequiredBool (v : Option JSValue) : Bool :=
  match v with
  | some (JSValue.bool _) => true
  | _ => false

/-- Modelled from the spec: `rtv.check({store}, {store: preferencesTs})`.
The rtvjs library is not in the repository sources, so the check is modelled
from the spec §4.1 contract: each recognized field present must match its
declared type, unknown extra keys are ignored, and the `cloudUrl`
trailing-slash validator (translated from the source typeset) must pass.
Returns the `result.valid` boolean. -/
def validate (m : RawMap) : Bool :=
  cloudUrlOk (lookupKey m "cloudUrl") &&
  isOptionalString (lookupKey m "username") &&
  isOptionalString (lookupKey m "savePath") &&
  isRequiredBool (lookupKey m "offline") &&
  isRequiredBool (lookupKey m "addToNew")

/-- A single dynamic property write `this[key] = v` on the store instance:
a recognized key hits the matching observable field, `updateHandlers`
clobbers the handler array with a raw JS value, and any other key creates or
overwrites an extra own property. -/
def setKey (s : PreferencesStore) (key : String) (v : JSValue) :
    PreferencesStore :=
  if key = "cloudUrl" then { s with cloudUrl := v }
  else if key = "username" then { s with username := v }
  else if key = "savePath" then { s with savePath := v }
  else if key = "offline" then { s with offline := v }
  else if key = "addToNew" then { s with addToNew := v }
  else if key = "updateHandlers" then { s with updateHandlers := HandlerSlot.js v }
  else { s with extraProps := setAssoc s.extraProps key v }

/-- Translation of the copy loop of `fromStore`:
`Object.keys(store).forEach((key) => (this[key] = store[key]))`. -/
def copyAll (s : PreferencesStore) : RawMap → PreferencesStore
  | [] => s
  | (k, v) :: rest => copyAll (setKey s k v) rest

/-- The observable outcome of one `fromStore` call: the resulting instance
state, the handlers invoked (in order), the number of `logger.error`
diagnostics emitted, and whether the call threw a TypeError (which happens
when `this.updateHandlers.forEach` is reached after the handler array was
clobbered with a non-array value). -/
structure FromStoreResult where
  state : PreferencesStore
  invoked : List Nat
  logs : Nat
  threw : Bool
  deriving DecidableEq

/-- Translation of `PreferencesStore.fromStore(store)`: validate the raw map;
on failure log one diagnostic and return with the state untouched; on success
copy every key of the map onto the instance and then invoke the registered
update handlers in order. -/
def fromStore (s : PreferencesStore) (m : RawMap) : FromStoreResult :=
  if validate m then
    match (copyAll s m).updateHandlers with
    | HandlerSlot.list hs => ⟨copyAll s m, hs, 0, false⟩
    | HandlerSlot.js _ => ⟨copyAll s m, [], 0, true⟩
  else
    ⟨s, [], 1, false⟩

/-- Translation of `PreferencesStore.reset()`:
`Object.keys(this).forEach((key) => (this[key] = defaults[key]))`.
`Object.keys(this)` enumerates every own enumerable property — the five
observable fields, `updateHandlers`, and any extra properties — and
`defaults` only carries the five recognized keys, so every other property is
assigned `undefined`. -/
def reset (d : JSValue) (s : PreferencesStore) : PreferencesStore :=
  { cloudUrl := defaultsLookup d "cloudUrl"
    username := defaultsLookup d "username"
    savePath := defaultsLookup d "savePath"
    offline := defaultsLookup d "offline"
    addToNew := defaultsLookup d "addToNew"
    updateHandlers := HandlerSlot.js (defaultsLookup d "updateHandlers")
    extraProps := s.extraProps.map (fun kv => (kv.1, defaultsLookup d kv.1)) }

/-- JS property read `this[key]` for the keys `toJSON` touches (the five
recognized keys; extra own properties are read from `extraProps`). -/
def getProp (s : PreferencesStore) (key : String) : JSValue :=
  if key = "cloudUrl" then s.cloudUrl
  else if key = "username" then s.username
  else if key = "savePath" then s.savePath
  else if key = "offline" then s.offline
  else if key = "addToNew" then s.addToNew
  else (lookupKey s.extraProps key).getD JSValue.undefined

/-- Translation of `PreferencesStore.toJSON()`: reduce over
`Object.keys(getDefaults())` copying `this[key]` into a fresh plain object;
the final `toJS(..., recurseEverything)` deep clone is the identity on the
pure values of this model. -/
def toJSON (d : JSValue) (s : PreferencesStore) : List (String × JSValue) :=
  (getDefaults d).map (fun kv => (kv.1, getProp s kv.1))

/-- Translation of `PreferencesStore.addUpdateHandler(handler)`: append the
handler unless an identical one is already registered.  In the `js` branch
the JS code would throw a TypeError (`find` on a non-array); no claim
exercises that branch and the state is returned unchanged. -/
def addUpdateHandler (s : PreferencesStore) (h : Nat) : PreferencesStore :=
  match s.updateHandlers with
  | HandlerSlot.list hs =>
    if hs.contains h then s
    else { s with updateHandlers := HandlerSlot.list (hs ++ [h]) }
  | HandlerSlot.js _ => s

/-- Translation of `PreferencesStore.removeUpdateHandler(handler)`: remove
the first (hence only) occurrence of the handler, if registered. -/
def removeUpdateHandler (s : PreferencesStore) (h : Nat) : PreferencesStore :=
  match s.updateHandlers with
  | HandlerSlot.list hs =>
    if hs.contains h then
      { s with updateHandlers :=
          HandlerSlot.list (hs.eraseIdx (hs.indexOf h)) }
    else s
  | HandlerSlot.js _ => s

/-- A sample live store state with distinctive field values, used to
instantiate theorems at concrete inputs. -/
def sampleStore : PreferencesStore :=
  { cloudUrl := JSValue.null
    username := JSValue.str "bob"
    savePath := JSValue.str "/downloads"
    offline := JSValue.bool false
    addToNew := JSValue.bool true
    updateHandlers := HandlerSlot.list []
    extraProps := [] }

/-- Scenario B raw map from the spec:
`fromStore(\x7bcloudUrl: "https://mcc.example.com", offline: true, addToNew: true\x7d)`. -/
def scenarioB : RawMap :=
  [("cloudUrl", JSValue.str "https://mcc.example.com"),
   ("offline", JSValue.bool true),
   ("addToNew", JSValue.bool true)]

/-- Scenario C raw map from the spec: a `cloudUrl` ending in a slash. -/
def scenarioC : RawMap :=
  [("cloudUrl", JSValue.str "https://mcc.example.com/"),
   ("offline", JSValue.bool true),
   ("addToNew", JSValue.bool true)]

/-- A raw map carrying a non-boolean `offline` value (null). -/
def nullOfflineMap : RawMap :=
  [("cloudUrl", JSValue.str "https://mcc.example.com"),
   ("offline", JSValue.null),
   ("addToNew", JSValue.bool true)]

/-- A raw map that passes validation yet carries the unrecognized key
`updateHandlers`, which the copy loop of `fromStore` adopts onto the
instance, clobbering the handler registry. -/
def clobberMap : RawMap :=
  [("offline", JSValue.bool true),
   ("addToNew", JSValue.bool true),
   ("updateHandlers", JSValue.str "pwned"),
   ("junk", JSValue.num 42)]

/-- A sample store with one registered handler, for the handler claims. -/
def handlerStore : PreferencesStore :=
  { sampleStore with updateHandlers := HandlerSlot.list [3] }

/-- A key absent from a raw map is not found by `lookupKey`. -/
theorem lookupKey_eq_none_of_not_mem (m : RawMap) (key : String)
    (h : key ∉ keysOf m) : lookupKey m key = none := by
  induction m with
  | nil => rfl
  | cons kv rest ih =>
    obtain ⟨k, v⟩ := kv
    simp only [keysOf, List.map_cons, List.mem_cons] at h
    push_neg at h
    show (if k = key then some v else lookupKey rest key) = none
    rw [if_neg (fun he => h.1 he.symm)]
    exact ih (by simpa [keysOf] using h.2)

/-- Overwriting a key makes it look up to the new value. -/
theorem lookupKey_setAssoc_self (l : List (String × JSValue)) (key : String)
    (v : JSValue) : lookupKey (setAssoc l key v) key = some v := by
  induction l with
  | nil => simp [setAssoc, lookupKey]
  | cons kv rest ih =>
    obtain ⟨k, w⟩ := kv
    by_cases hk : k = key
    · simp [setAssoc, hk, lookupKey]
    · simp [setAssoc, hk, lookupKey, ih]

/-- Overwriting one key leaves the lookup of any other key unchanged. -/
theorem lookupKey_setAssoc_ne (l : List (String × JSValue)) (key : String)
    (v : JSValue) (k2 : String) (h : k2 ≠ key) :
    lookupKey (setAssoc l key v) k2 = lookupKey l k2 := by
  induction l with
  | nil =>
    show (if key = k2 then some v else lookupKey [] k2) = lookupKey [] k2
    rw [if_neg (Ne.symm h)]
  | cons kv rest ih =>
    obtain ⟨k, w⟩ := kv
    by_cases hk : k = key
    · subst hk
      simp [setAssoc, lookupKey, Ne.symm h]
    · simp only [setAssoc, if_neg hk]
      show (if k = k2 then some w else lookupKey (setAssoc rest key v) k2)
          = if k = k2 then some w else lookupKey rest k2
      by_cases hk2 : k = k2
      · rw [if_pos hk2, if_pos hk2]
      · rw [if_neg hk2, if_neg hk2, ih]

/-- A dynamic write to a different key leaves the `cloudUrl` field alone. -/
theorem setKey_cloudUrl_ne (s : PreferencesStore) (k : String) (v : JSValue)
    (h : k ≠ "cloudUrl") : (setKey s k v).cloudUrl = s.cloudUrl := by
  unfold setKey
  split_ifs <;> first | rfl | simp_all

/-- A dynamic write to a different key leaves the `username` field alone. -/
theorem setKey_username_ne (s : PreferencesStore) (k : String) (v : JSValue)
    (h : k ≠ "username") : (setKey s k v).username = s.username := by
  unfold setKey
  split_ifs <;> first | rfl | simp_all

/-- A dynamic write to a different key leaves the `savePath` field alone. -/
theorem setKey_savePath_ne (s : PreferencesStore) (k : String) (v : JSValue)
    (h : k ≠ "savePath") : (setKey s k v).savePath = s.savePath := by
  unfold setKey
  split_ifs <;> first | rfl | simp_all

/-- A dynamic write to a different key leaves the `offline` field alone. -/
theorem setKey_offline_ne (s : PreferencesStore) (k : String) (v : JSValue)
    (h : k ≠ "offline") : (setKey s k v).offline = s.offline := by
  unfold setKey
  split_ifs <;> first | rfl | simp_all

/-- A dynamic write to a different key leaves the `addToNew` field alone. -/
theorem setKey_addToNew_ne (s : PreferencesStore) (k : String) (v : JSValue)
    (h : k ≠ "addToNew") : (setKey s k v).addToNew = s.addToNew := by
  unfold setKey
  split_ifs <;> first | rfl | simp_all

/-- A dynamic write to a key other than `updateHandlers` leaves the handler
slot alone. -/
theorem setKey_handlers_ne (s : PreferencesStore) (k : String) (v : JSValue)
    (h : k ≠ "updateHandlers") :
    (setKey s k v).updateHandlers = s.updateHandlers := by
  unfold setKey
  split_ifs <;> first | rfl | simp_all

/-- A dynamic write to a different key leaves the lookup of an extra
property unchanged. -/
theorem setKey_extraLookup_ne (s : PreferencesStore) (k : String) (v : JSValue)
    (key : String) (h : k ≠ key) :
    lookupKey (setKey s k v).extraProps key = lookupKey s.extraProps key := by
  unfold setKey
  split_ifs <;> first | rfl | exact lookupKey_setAssoc_ne _ _ _ _ (fun he => h he.symm)

/-- Generic frame lemma for the copy loop: any observation of the store that
is untouched by writes to keys other than `key` is preserved by `copyAll`
over a map not carrying `key`. -/
theorem copyAll_obs_absent {β : Type} (f : PreferencesStore → β) (key : String)
    (hne : ∀ s k v, k ≠ key → f (setKey s k v) = f s)
    (m : RawMap) (s : PreferencesStore) (h : lookupKey m key = none) :
    f (copyAll s m) = f s := by
  induction m generalizing s with
  | nil => rfl
  | cons kv rest ih =>
    obtain ⟨k, v⟩ := kv
    rw [lookupKey] at h
    by_cases hk : k = key
    · simp [hk] at h
    · rw [if_neg hk] at h
      show f (copyAll (setKey s k v) rest) = f s
      rw [ih (setKey s k v) h, hne s k v hk]

/-- Generic merge lemma for the copy loop: an observation written exactly by
key `key` ends up at the mapped value of the map's entry for `key`, or stays
at its old value when the key is absent (keys assumed distinct, as in a JS
object). -/
theorem copyAll_obs {β : Type} (f : PreferencesStore → β) (val : JSValue → β)
    (key : String)
    (heq : ∀ s v, f (setKey s key v) = val v)
    (hne : ∀ s k v, k ≠ key → f (setKey s k v) = f s)
    (m : RawMap) (s : PreferencesStore) (hnd : (keysOf m).Nodup) :
    f (copyAll s m) = ((lookupKey m key).map val).getD (f s) := by
  induction m generalizing s with
  | nil => rfl
  | cons kv rest ih =>
    obtain ⟨k, v⟩ := kv
    simp only [keysOf, List.map_cons, List.nodup_cons] at hnd
    by_cases hk : k = key
    · subst hk
      have habs : lookupKey rest k = none :=
        lookupKey_eq_none_of_not_mem rest k (by simpa [keysOf] using hnd.1)
      show f (copyAll (setKey s k v) rest) = _
      rw [copyAll_obs_absent f k hne rest _ habs, heq]
      simp [lookupKey]
    · show f (copyAll (setKey s k v) rest) = _
      rw [ih (setKey s k v) (by simpa [keysOf] using hnd.2), hne s k v hk]
      simp [lookupKey, if_neg hk]

/-- After the copy loop, the handler slot is either untouched or clobbered
with a raw JS value (when the map carried an `updateHandlers` key). -/
theorem copyAll_handlers_cases (m : RawMap) (s : PreferencesStore) :
    (copyAll s m).updateHandlers = s.updateHandlers ∨
      ∃ v, (copyAll s m).updateHandlers = HandlerSlot.js v := by
  induction m generalizing s with
  | nil => exact Or.inl rfl
  | cons kv rest ih =>
    obtain ⟨k, v⟩ := kv
    by_cases hk : k = "updateHandlers"
    · subst hk
      rcases ih (setKey s "updateHandlers" v) with h | ⟨w, hw⟩
      · refine Or.inr ⟨v, ?_⟩
        show (copyAll (setKey s "updateHandlers" v) rest).updateHandlers = _
        rw [h]
        rfl
      · exact Or.inr ⟨w, hw⟩
    · rcases ih (setKey s k v) with h | ⟨w, hw⟩
      · left
        show (copyAll (setKey s k v) rest).updateHandlers = _
        rw [h, setKey_handlers_ne s k v hk]
      · exact Or.inr ⟨w, hw⟩

/-- On a valid map, `fromStore` runs the copy loop. -/
theorem fromStore_state_valid (s : PreferencesStore) (m : RawMap)
    (hv : validate m = true) : (fromStore s m).state = copyAll s m := by
  unfold fromStore
  rw [hv]
  simp only [if_true]
  split <;> rfl

/-- On an invalid map, `fromStore` logs once and changes nothing. -/
theorem fromStore_invalid (s : PreferencesStore) (m : RawMap)
    (hv : validate m = false) : fromStore s m = ⟨s, [], 1, false⟩ := by
  unfold fromStore
  rw [hv]
  rfl

/-- On a valid map whose copy step leaves the handler registry an actual
array, `fromStore` mutates the state and invokes exactly that array. -/
theorem fromStore_success (s : PreferencesStore) (m : RawMap) (hs : List Nat)
    (hv : validate m = true)
    (hslot : (copyAll s m).updateHandlers = HandlerSlot.list hs) :
    fromStore s m = ⟨copyAll s m, hs, 0, false⟩ := by
  unfold fromStore
  rw [hv, hslot]
  rfl

/-- On a valid map whose copy step leaves the handler registry clobbered
with a raw JS value, `fromStore` throws on `forEach` and invokes nothing. -/
theorem fromStore_clobbered (s : PreferencesStore) (m : RawMap) (v : JSValue)
    (hv : validate m = true)
    (hslot : (copyAll s m).updateHandlers = HandlerSlot.js v) :
    fromStore s m = ⟨copyAll s m, [], 0, true⟩ := by
  unfold fromStore
  rw [hv, hslot]
  rfl

/-- A write to an unrecognized key other than `updateHandlers` goes to the
extra own properties. -/
theorem setKey_extra_eq (s : PreferencesStore) (k : String) (v : JSValue)
    (hkrec : k ∉ recognizedKeys) (hkuh : k ≠ "updateHandlers") :
    (setKey s k v).extraProps = setAssoc s.extraProps k v := by
  have h1 : k ≠ "cloudUrl" := fun he => hkrec (by rw [he]; decide)
  have h2 : k ≠ "username" := fun he => hkrec (by rw [he]; decide)
  have h3 : k ≠ "savePath" := fun he => hkrec (by rw [he]; decide)
  have h4 : k ≠ "offline" := fun he => hkrec (by rw [he]; decide)
  have h5 : k ≠ "addToNew" := fun he => hkrec (by rw [he]; decide)
  unfold setKey
  rw [if_neg h1, if_neg h2, if_neg h3, if_neg h4, if_neg h5, if_neg hkuh]

/-- The copy loop adopts each unrecognized key of the map (other than
`updateHandlers`) as an extra own property holding the map's value. -/
theorem copyAll_extra (m : RawMap) (k : String) (v : JSValue)
    (hkrec : k ∉ recognizedKeys) (hkuh : k ≠ "updateHandlers") :
    ∀ s : PreferencesStore, (k, v) ∈ m → (keysOf m).Nodup →
      lookupKey (copyAll s m).extraProps k = some v := by
  induction m with
  | nil =>
    intro s hmem _
    cases hmem
  | cons kv rest ih =>
    intro s hmem hnd
    obtain ⟨k1, v1⟩ := kv
    simp only [keysOf, List.map_cons, List.nodup_cons] at hnd
    rcases List.mem_cons.mp hmem with heq | hmem2
    · cases heq
      have habs : lookupKey rest k = none :=
        lookupKey_eq_none_of_not_mem rest k (by simpa [keysOf] using hnd.1)
      show lookupKey (copyAll (setKey s k v) rest).extraProps k = some v
      rw [copyAll_obs_absent (fun st => lookupKey st.extraProps k) k
            (fun s2 k2 v2 hne2 => setKey_extraLookup_ne s2 k2 v2 k hne2)
            rest _ habs]
      rw [setKey_extra_eq s k v hkrec hkuh]
      exact lookupKey_setAssoc_self _ _ _
    · have hk1 : k1 ≠ k := by
        intro he
        subst he
        exact hnd.1 (List.mem_map.mpr ⟨(k1, v), hmem2, rfl⟩)
      show lookupKey (copyAll (setKey s k1 v1) rest).extraProps k = some v
      exact ih (setKey s k1 v1) hmem2 (by simpa [keysOf] using hnd.2)

/-- C1: for every raw map the Schema validates as Valid, `fromStore` copies
each recognized key's value onto the matching live field and leaves every
recognized field whose key is absent at its pre-call value (merge, not
replace, semantics). -/
theorem fromStore_merges_recognized_fields (s : PreferencesStore) (m : RawMap)
    (hnd : (keysOf m).Nodup) (hv : validate m = true) :
    (fromStore s m).state.cloudUrl = (lookupKey m "cloudUrl").getD s.cloudUrl
    ∧ (fromStore s m).state.username = (lookupKey m "username").getD s.username
    ∧ (fromStore s m).state.savePath = (lookupKey m "savePath").getD s.savePath
    ∧ (fromStore s m).state.offline = (lookupKey m "offline").getD s.offline
    ∧ (fromStore s m).state.addToNew = (lookupKey m "addToNew").getD s.addToNew := by
  rw [fromStore_state_valid s m hv]
  refine ⟨?_, ?_, ?_, ?_, ?_⟩
  · have h := copyAll_obs (fun st => st.cloudUrl) id "cloudUrl"
      (fun s2 v => by simp [setKey]) setKey_cloudUrl_ne m s hnd
    simpa using h
  · have h := copyAll_obs (fun st => st.username) id "username"
      (fun s2 v => by simp [setKey]) setKey_username_ne m s hnd
    simpa using h
  · have h := copyAll_obs (fun st => st.savePath) id "savePath"
      (fun s2 v => by simp [setKey]) setKey_savePath_ne m s hnd
    simpa using h
  · have h := copyAll_obs (fun st => st.offline) id "offline"
      (fun s2 v => by simp [setKey]) setKey_offline_ne m s hnd
    simpa using h
  · have h := copyAll_obs (fun st => st.addToNew) id "addToNew"
      (fun s2 v => by simp [setKey]) setKey_addToNew_ne m s hnd
    simpa using h

/-- Witness for C1 at the spec's Scenario B: `cloudUrl` and the two flags are
taken from the map while `username` and `savePath` keep their prior live
values. -/
theorem fromStore_merges_recognized_fields_witness :
    (fromStore sampleStore scenarioB).state.cloudUrl
        = JSValue.str "https://mcc.example.com"
    ∧ (fromStore sampleStore scenarioB).state.offline = JSValue.bool true
    ∧ (fromStore sampleStore scenarioB).state.addToNew = JSValue.bool true
    ∧ (fromStore sampleStore scenarioB).state.username = sampleStore.username
    ∧ (fromStore sampleStore scenarioB).state.savePath = sampleStore.savePath := by
  have h := fromStore_merges_recognized_fields sampleStore scenarioB
    (by decide) (by decide)
  exact ⟨h.1.trans (by decide), h.2.2.2.1.trans (by decide),
    h.2.2.2.2.trans (by decide), h.2.1.trans (by decide),
    h.2.2.1.trans (by decide)⟩

/-- C2: a raw map whose `cloudUrl` is a string ending in a slash is rejected:
`fromStore` emits exactly one diagnostic, leaves every live field at its
pre-call value and invokes no update handler; and the empty string neither
ends in a slash nor fails the `cloudUrl` field check by itself. -/
theorem fromStore_rejects_trailing_slash :
    (∀ (s : PreferencesStore) (m : RawMap) (u : String),
        lookupKey m "cloudUrl" = some (JSValue.str u) →
        endsWithSlash u = true →
        fromStore s m = ⟨s, [], 1, false⟩)
    ∧ endsWithSlash "" = false
    ∧ cloudUrlOk (some (JSValue.str "")) = true := by
  refine ⟨?_, by decide, by decide⟩
  intro s m u hlook hslash
  have hne : (u = "") = False := by
    refine eq_false ?_
    intro he
    subst he
    simp [endsWithSlash] at hslash
  have hv : validate m = false := by
    unfold validate
    rw [hlook]
    simp [cloudUrlOk, hslash, hne]
  exact fromStore_invalid s m hv

/-- Witness for C2 at the spec's Scenario C: a trailing-slash `cloudUrl` is
rejected with one diagnostic and no state change. -/
theorem fromStore_rejects_trailing_slash_witness :
    fromStore sampleStore scenarioC = ⟨sampleStore, [], 1, false⟩ :=
  fromStore_rejects_trailing_slash.1 sampleStore scenarioC
    "https://mcc.example.com/" (by decide) (by decide)

/-- C3 counterexample: `clobberMap` passes validation, yet its unrecognized
`updateHandlers` key is copied onto the instance by `fromStore`, changing a
store field other than the five recognized ones, and its `junk` key becomes
an extra own property. -/
theorem fromStore_unrecognized_keys_counterexample :
    validate clobberMap = true
    ∧ (fromStore handlerStore clobberMap).state.updateHandlers
        ≠ handlerStore.updateHandlers
    ∧ (fromStore handlerStore clobberMap).state.updateHandlers
        = HandlerSlot.js (JSValue.str "pwned")
    ∧ lookupKey (fromStore handlerStore clobberMap).state.extraProps "junk"
        = some (JSValue.num 42) := by
  decide

/-- C3 amended: on a validated map, `fromStore` copies every key of the map
onto the live instance, not only the recognized ones: a map entry for
`updateHandlers` overwrites the handler registry with its raw value, and any
other unrecognized key is adopted as an extra own property of the store. -/
theorem fromStore_adopts_unrecognized_keys (s : PreferencesStore) (m : RawMap)
    (hnd : (keysOf m).Nodup) (hv : validate m = true) :
    (∀ v, lookupKey m "updateHandlers" = some v →
        (fromStore s m).state.updateHandlers = HandlerSlot.js v)
    ∧ (∀ k v, (k, v) ∈ m → k ∉ recognizedKeys → k ≠ "updateHandlers" →
        lookupKey (fromStore s m).state.extraProps k = some v) := by
  rw [fromStore_state_valid s m hv]
  constructor
  · intro v hlook
    have h : (copyAll s m).updateHandlers
        = ((lookupKey m "updateHandlers").map HandlerSlot.js).getD
            s.updateHandlers :=
      copyAll_obs (fun st => st.updateHandlers) HandlerSlot.js
        "updateHandlers" (fun s2 v2 => by simp [setKey]) setKey_handlers_ne
        m s hnd
    rw [h, hlook]
    rfl
  · intro k v hmem hkrec hkuh
    exact copyAll_extra m k v hkrec hkuh s hmem hnd

/-- Witness for the amended C3: the clobber map overwrites the registry and
adds the `junk` extra property. -/
theorem fromStore_adopts_unrecognized_keys_witness :
    (fromStore handlerStore clobberMap).state.updateHandlers
        = HandlerSlot.js (JSValue.str "pwned")
    ∧ lookupKey (fromStore handlerStore clobberMap).state.extraProps "junk"
        = some (JSValue.num 42) := by
  have h := fromStore_adopts_unrecognized_keys handlerStore clobberMap
    (by decide) (by decide)
  exact ⟨h.1 (JSValue.str "pwned") (by decide),
    h.2 "junk" (JSValue.num 42) (by decide) (by decide) (by decide)⟩

/-- C4 is violated by the code: `reset()` assigns `defaults[key]` for every
own enumerable key of the instance, and the defaults object has no
`updateHandlers` entry, so the handler registry is overwritten with
`undefined` while the five preference fields do get their defaults; a
subsequent valid `fromStore` then throws on `this.updateHandlers.forEach`
and notifies no previously registered handler. -/
theorem reset_clobbers_updateHandlers :
    (reset JSValue.null handlerStore).cloudUrl = JSValue.null
    ∧ (reset JSValue.null handlerStore).savePath = JSValue.null
    ∧ (reset JSValue.null handlerStore).updateHandlers
        = HandlerSlot.js JSValue.undefined
    ∧ (reset JSValue.null handlerStore).updateHandlers
        ≠ handlerStore.updateHandlers
    ∧ (fromStore (reset JSValue.null handlerStore) scenarioB).invoked = []
    ∧ (fromStore (reset JSValue.null handlerStore) scenarioB).threw = true := by
  decide

/-- C5: a raw map whose `offline` or `addToNew` key holds a value that is
not of boolean type (null included) fails validation, so `fromStore` logs
one diagnostic and leaves every live field unchanged. -/
theorem fromStore_rejects_nonboolean_flags (s : PreferencesStore) (m : RawMap)
    (k : String) (v : JSValue) (hk : k = "offline" ∨ k = "addToNew")
    (hlook : lookupKey m k = some v) (hnb : ∀ b, v ≠ JSValue.bool b) :
    fromStore s m = ⟨s, [], 1, false⟩ := by
  have hb : isRequiredBool (some v) = false := by
    cases v <;> first | rfl | exact absurd rfl (hnb _)
  have hv : validate m = false := by
    rcases hk with hk | hk <;> subst hk <;>
      (unfold validate; rw [hlook, hb]; simp)
  exact fromStore_invalid s m hv

/-- Witness for C5: a null `offline` value is rejected without mutation. -/
theorem fromStore_rejects_nonboolean_flags_witness :
    fromStore sampleStore nullOfflineMap = ⟨sampleStore, [], 1, false⟩ :=
  fromStore_rejects_nonboolean_flags sampleStore nullOfflineMap "offline"
    JSValue.null (Or.inl rfl) (by decide)
    (fun b hb => JSValue.noConfusion hb)

/-- C6: in every store state, `toJSON` returns a plain snapshot whose key
set is exactly the five recognized keys and whose values are the current
live field values; the snapshot is a fresh pure value, so it shares no
mutable reference with the live store (the source enforces this with a
`toJS` deep clone; all snapshot values in this model are immutable). -/
theorem toJSON_snapshot_shape (d : JSValue) (s : PreferencesStore) :
    (toJSON d s).map Prod.fst = recognizedKeys
    ∧ toJSON d s =
        [("cloudUrl", s.cloudUrl), ("username", s.username),
         ("savePath", s.savePath), ("offline", s.offline),
         ("addToNew", s.addToNew)] := by
  refine ⟨rfl, ?_⟩
  simp [toJSON, getDefaults, getProp]

/-- C7: `reset()` followed by `toJSON()` yields exactly `getDefaults()`,
whatever loads or mutations happened before the reset. -/
theorem reset_then_toJSON_eq_getDefaults (d : JSValue) (s : PreferencesStore) :
    toJSON d (reset d s) = getDefaults d := by
  simp [toJSON, reset, getDefaults, getProp, defaultsLookup, lookupKey]

/-- C8: registering the same handler twice is a no-op the second time and
leaves exactly one occurrence in the registry; a subsequent successful
`fromStore` (one that validates and completes without throwing) invokes the
registry in registration order, hence that handler exactly once. -/
theorem addUpdateHandler_idempotent (s : PreferencesStore) (hs : List Nat)
    (h : Nat) (m : RawMap) (hslot : s.updateHandlers = HandlerSlot.list hs)
    (hmem : h ∉ hs) (hv : validate m = true) :
    addUpdateHandler (addUpdateHandler s h) h = addUpdateHandler s h
    ∧ (addUpdateHandler (addUpdateHandler s h) h).updateHandlers
        = HandlerSlot.list (hs ++ [h])
    ∧ (hs ++ [h]).count h = 1
    ∧ ((fromStore (addUpdateHandler (addUpdateHandler s h) h) m).threw = false →
        (fromStore (addUpdateHandler (addUpdateHandler s h) h) m).invoked
          = hs ++ [h]) := by
  have hc : hs.contains h = false := by simpa using hmem
  have h1 : addUpdateHandler s h
      = { s with updateHandlers := HandlerSlot.list (hs ++ [h]) } := by
    unfold addUpdateHandler
    rw [hslot]
    show (if hs.contains h = true then _ else _) = _
    rw [if_neg (by simpa using hmem)]
  have hc2 : (hs ++ [h]).contains h = true := by simp
  have h2 : addUpdateHandler (addUpdateHandler s h) h = addUpdateHandler s h := by
    rw [h1]
    show (if (hs ++ [h]).contains h = true then _ else _) = _
    rw [if_pos hc2]
  have hslot2 : (addUpdateHandler (addUpdateHandler s h) h).updateHandlers
      = HandlerSlot.list (hs ++ [h]) := by
    rw [h2, h1]
  refine ⟨h2, hslot2, ?_, ?_⟩
  · simp [List.count_append, List.count_eq_zero.mpr hmem]
  · intro hthrew
    rcases copyAll_handlers_cases m (addUpdateHandler (addUpdateHandler s h) h)
      with hcase | ⟨w, hw⟩
    · rw [fromStore_success _ m (hs ++ [h]) hv (hcase.trans hslot2)]
    · rw [fromStore_clobbered _ m w hv hw] at hthrew
      cases hthrew

/-- Witness for C8: adding handler 5 twice to a registry holding handler 3
registers it once, and Scenario B's load invokes 3 then 5. -/
theorem addUpdateHandler_idempotent_witness :
    addUpdateHandler (addUpdateHandler handlerStore 5) 5
        = addUpdateHandler handlerStore 5
    ∧ (addUpdateHandler (addUpdateHandler handlerStore 5) 5).updateHandlers
        = HandlerSlot.list [3, 5]
    ∧ ([3] ++ [5]).count 5 = 1
    ∧ (fromStore (addUpdateHandler (addUpdateHandler handlerStore 5) 5)
        scenarioB).invoked = [3, 5] := by
  have h := addUpdateHandler_idempotent handlerStore [3] 5 scenarioB rfl
    (by decide) (by decide)
  exact ⟨h.1, h.2.1, h.2.2.1, h.2.2.2 (by decide)⟩

/-- C9: `getDefaults` is a plain static function independent of any live
instance, returning cloudUrl null, username null, savePath the process-wide
configured default (whose initial value is null, from
`static defaultSavePath = null`), offline false and addToNew true. -/
theorem getDefaults_values (d : JSValue) :
    lookupKey (getDefaults d) "cloudUrl" = some JSValue.null
    ∧ lookupKey (getDefaults d) "username" = some JSValue.null
    ∧ lookupKey (getDefaults d) "savePath" = some d
    ∧ lookupKey (getDefaults d) "offline" = some (JSValue.bool false)
    ∧ lookupKey (getDefaults d) "addToNew" = some (JSValue.bool true)
    ∧ lookupKey (getDefaults initialDefaultSavePath) "savePath"
        = some JSValue.null :=
  ⟨rfl, rfl, rfl, rfl, rfl, rfl⟩

/-- C10: the savePath default is read from the static field at each call:
with the static field currently holding the string `v`, `getDefaults`
returns `savePath = v` and `reset` writes `v` into the live `savePath`
field, regardless of the prior instance state. -/
theorem defaultSavePath_read_at_each_call (v : String) (s : PreferencesStore) :
    lookupKey (getDefaults (JSValue.str v)) "savePath"
        = some (JSValue.str v)
    ∧ (reset (JSValue.str v) s).savePath = JSValue.str v :=
  ⟨rfl, rfl⟩

end LensCC
